import Mathlib

/-!
Verification development for the Wishlist Savings Tracker (src/Script.js).

Shallow embedding conventions:

* JS numbers are modelled by `ℚ` (exact rational arithmetic).  A JS value
  that may be `NaN` is modelled by `Option ℚ`, with `none` standing for
  `NaN` (`safeNumber` maps every non-finite input to `NaN`, and the only
  call sites of the mutators filter through `Number.isFinite`, so
  infinities never reach the core operations).
* `Number.EPSILON` is `2 ^ (-52)` exactly, embedded as `epsJS`.
* `Math.round` rounds to the nearest integer with ties toward `+∞`,
  which is exactly `⌊x + 1/2⌋`; embedded as `jsRound`.
* `uid()` (`Math.random` + `Date.now`) and `Date.now()` are host
  nondeterminism; they are modelled by a deterministic fresh-supply
  counter `tick` carried in the state.  No claim depends on the actual
  id string or timestamp beyond lookup by id and sort order.
* The source mutators return `undefined` on every path; their only
  caller-observable effects are the in-place mutation of `goals`, calls
  to `alert` (user-surfaced error messages) and calls to `render`
  (which performs the `saveToStorage` persistence write).  Each embedded
  mutator therefore returns the new goal list together with an outcome
  tag recording which branch of the source ran; the functions
  `addSavingsAlerts` / `addSavingsPersists` (etc.) record which branches
  call `alert` / `render` in the source.
-/

namespace WishlistTracker

/-- Value of `Number.EPSILON`, which is `2^(-52)`. -/
def epsJS : ℚ := 1 / 4503599627370496

/-- Behaviour of `Math.round`: nearest integer, ties toward `+∞`. -/
def jsRound (x : ℚ) : ℤ := ⌊x + 1 / 2⌋

/-- Source `round2(n) { return Math.round((n + Number.EPSILON) * 100) / 100; }`
(src/Script.js lines 59-61). -/
def round2 (n : ℚ) : ℚ := (jsRound ((n + epsJS) * 100) : ℚ) / 100

/-- Source `clamp(n, min, max) { return Math.max(min, Math.min(max, n)); }`
(lines 50-52). -/
def clamp (n lo hi : ℚ) : ℚ := max lo (min hi n)

/-- Source `computeRemaining(target, saved) { return round2(Math.max(0, target - saved)); }`
(lines 77-79). -/
def computeRemaining (target saved : ℚ) : ℚ := round2 (max 0 (target - saved))

/-- Source `computeProgressPct(target, saved)` (lines 81-84): `0` when
`target <= 0`, else `clamp((saved / target) * 100, 0, 100)`. -/
def computeProgressPct (target saved : ℚ) : ℚ :=
  if target ≤ 0 then 0 else clamp (saved / target * 100) 0 100

/-- One goal record, as stored in the `goals` array (line 19). -/
structure Goal where
  id : String
  name : String
  desc : String
  target : ℚ
  saved : ℚ
  createdAt : Nat
deriving Repr, DecidableEq

/-- Currency preference: `"INR" | "USD"`. -/
inductive Currency where
  | INR
  | USD
deriving Repr, DecidableEq

/-- Theme preference: `"dark" | "light"`. -/
inductive Theme where
  | dark
  | light
deriving Repr, DecidableEq

/-- The preferences record (line 22). -/
structure Prefs where
  currency : Currency
  theme : Theme
deriving Repr, DecidableEq

/-- The initial / documented default preferences
`{ currency: "INR", theme: "dark" }` (line 23). -/
def defaultPrefs : Prefs := ⟨Currency.INR, Theme.dark⟩

/-- The whole mutable program state: the `goals` array, the `prefs`
record, and the deterministic fresh-supply counter modelling
`uid()` / `Date.now()`. -/
structure State where
  goals : List Goal
  prefs : Prefs
  tick : Nat
deriving Repr, DecidableEq

/-- Initial in-memory state before any operation: `goals = []`,
`prefs = { currency: "INR", theme: "dark" }` (lines 20-23). -/
def initState : State := ⟨[], defaultPrefs, 0⟩

/-- Fresh id supply standing in for `uid()` (lines 45-48). -/
def uid (tick : Nat) : String := "g_" ++ toString tick

/-- Behaviour of JS `String.prototype.trim`: drop leading and trailing whitespace.
(Embedded directly on the character list; the JS built-in has no body in
the source.) -/
def jsTrim (s : String) : String :=
  ⟨((s.data.dropWhile Char.isWhitespace).reverse.dropWhile Char.isWhitespace).reverse⟩

/-- Source `addGoal({name, desc, target})` (lines 250-261): appends a new goal
with trimmed name/desc, `target: round2(target)`, `saved: 0`, a fresh id
and the current timestamp.  Returns the new state and the created goal. -/
def addGoal (s : State) (name desc : String) (target : ℚ) : State × Goal :=
  let newGoal : Goal :=
    { id := uid s.tick
      name := jsTrim name
      desc := jsTrim desc
      target := round2 target
      saved := 0
      createdAt := s.tick }
  ({ s with goals := s.goals ++ [newGoal], tick := s.tick + 1 }, newGoal)

/-- Outcome of the add-goal form submit handler (lines 318-342). -/
inductive SubmitOutcome where
  | emptyName
  | invalidTarget
  | created
deriving Repr, DecidableEq

/-- The `addGoalForm` submit listener (lines 318-342): rejects an empty
trimmed name, then a non-finite or non-positive target (`none` models a
`NaN` parse), and otherwise calls `addGoal`. -/
def submitAddGoal (s : State) (name desc : String) (target : Option ℚ) :
    State × SubmitOutcome :=
  if jsTrim name = "" then (s, SubmitOutcome.emptyName)
  else
    match target with
    | none => (s, SubmitOutcome.invalidTarget)
    | some t =>
      if ¬ 0 < t then (s, SubmitOutcome.invalidTarget)
      else ((addGoal s name desc t).1, SubmitOutcome.created)

/-- Source `deleteGoal(id) { goals = goals.filter((g) => g.id !== id); render(); }`
(lines 263-266). -/
def deleteGoal (goals : List Goal) (id : String) : List Goal :=
  goals.filter (fun g => g.id ≠ id)

/-- Branch taken by `addSavings` (lines 268-285).  The source returns
`undefined` on every branch; only `exceeds` calls `alert` and only
`added` calls `render` (hence persists). -/
inductive AddSavingsOutcome where
  | notFound
  | invalidAmount
  | exceeds (remaining : ℚ)
  | added
deriving Repr, DecidableEq

/-- Source `addSavings(id, amountToAdd)` (lines 268-285).  `goals.find` returns
the first goal with matching id and the source mutates that object in
place, modelled by replacing the first match.  `amountToAdd` is
`Option ℚ` (`none` = `NaN`); `round2(NaN) = NaN` and `!(NaN > 0)` takes
the silent-return branch. -/
def addSavings : List Goal → String → Option ℚ → List Goal × AddSavingsOutcome
  | [], _, _ => ([], AddSavingsOutcome.notFound)
  | g :: tl, id, amountToAdd =>
    if g.id = id then
      let remaining := computeRemaining g.target g.saved
      match amountToAdd.map round2 with
      | none => (g :: tl, AddSavingsOutcome.invalidAmount)
      | some amt =>
        if ¬ 0 < amt then (g :: tl, AddSavingsOutcome.invalidAmount)
        else if remaining < amt then (g :: tl, AddSavingsOutcome.exceeds remaining)
        else ({ g with saved := round2 (g.saved + amt) } :: tl, AddSavingsOutcome.added)
    else
      let r := addSavings tl id amountToAdd
      (g :: r.1, r.2)

/-- Which `addSavings` branches call `alert` in the source (only the
line-279 `exceeds` branch does). -/
def addSavingsAlerts : AddSavingsOutcome → Bool
  | AddSavingsOutcome.exceeds _ => true
  | _ => false

/-- Which `addSavings` branches call `render` — and hence
`saveToStorage` — in the source (only line 284 does). -/
def addSavingsPersists : AddSavingsOutcome → Bool
  | AddSavingsOutcome.added => true
  | _ => false

/-- Branch taken by `editTarget` (lines 287-306). -/
inductive EditTargetOutcome where
  | notFound
  | cancelled
  | invalidAmount
  | updated
deriving Repr, DecidableEq

/-- Source `editTarget(id)` (lines 287-306).  The prompt result is modelled as
`Option (Option ℚ)`: outer `none` = the user cancelled the prompt
(`prompt` returned `null`); `some none` = the input did not parse to a
finite number (`safeNumber` gave `NaN`); `some (some q)` = it parsed to
`q`.  On success the source sets `target = round2(newTarget)` and then
clamps `saved` down to the new target when `saved > target`. -/
def editTarget : List Goal → String → Option (Option ℚ) → List Goal × EditTargetOutcome
  | [], _, _ => ([], EditTargetOutcome.notFound)
  | g :: tl, id, promptResult =>
    if g.id = id then
      match promptResult with
      | none => (g :: tl, EditTargetOutcome.cancelled)
      | some none => (g :: tl, EditTargetOutcome.invalidAmount)
      | some (some newTarget) =>
        if ¬ 0 < newTarget then (g :: tl, EditTargetOutcome.invalidAmount)
        else
          let t := round2 newTarget
          ({ g with target := t, saved := if t < g.saved then t else g.saved } :: tl,
           EditTargetOutcome.updated)
    else
      let r := editTarget tl id promptResult
      (g :: r.1, r.2)

/-- Which `editTarget` branches call `alert` in the source (only the
line-297 invalid-amount branch does; the not-found and cancelled
branches are bare returns). -/
def editTargetAlerts : EditTargetOutcome → Bool
  | EditTargetOutcome.invalidAmount => true
  | _ => false

/-- Which `editTarget` branches call `render` in the source (line 305,
success only). -/
def editTargetPersists : EditTargetOutcome → Bool
  | EditTargetOutcome.updated => true
  | _ => false

/-- Source `resetAll()` (lines 308-315): when the user confirms, clears the
goal collection and restores the default preferences. -/
def resetAll (s : State) (confirmed : Bool) : State :=
  if confirmed then { s with goals := [], prefs := defaultPrefs } else s

/-- The currency toggle listener (lines 346-349). -/
def toggleCurrency (p : Prefs) : Prefs :=
  { p with currency := match p.currency with
      | Currency.INR => Currency.USD
      | Currency.USD => Currency.INR }

/-- The theme toggle listener (lines 351-354). -/
def toggleTheme (p : Prefs) : Prefs :=
  { p with theme := match p.theme with
      | Theme.dark => Theme.light
      | Theme.light => Theme.dark }

/-- Stable insertion of a goal into a list sorted by `createdAt`
descending (newest first). -/
def insertDesc (g : Goal) : List Goal → List Goal
  | [] => [g]
  | h :: t => if g.createdAt ≤ h.createdAt then h :: insertDesc g t else g :: h :: t

/-- Goal `list()` view: `[...goals].sort((a, b) => b.createdAt - a.createdAt)`
(line 160), i.e. a fresh snapshot sorted newest first. -/
def listGoals (goals : List Goal) : List Goal :=
  goals.foldr insertDesc []

/-- The four summary values computed by `renderSummary` (lines 138-148). -/
structure Summary where
  totalGoals : Nat
  totalRequired : ℚ
  totalSaved : ℚ
  totalRemaining : ℚ
deriving Repr, DecidableEq

/-- Source `renderSummary` (lines 138-148): `reduce`-sums of `target` and
`saved` over all goals and `totalRemaining = Math.max(0, totalRequired - totalSaved)`. -/
def renderSummary (goals : List Goal) : Summary :=
  let totalRequired := goals.foldl (fun acc g => acc + g.target) 0
  let totalSaved := goals.foldl (fun acc g => acc + g.saved) 0
  { totalGoals := goals.length
    totalRequired := totalRequired
    totalSaved := totalSaved
    totalRemaining := max 0 (totalRequired - totalSaved) }

/-- One user-issued operation against the store, as dispatched by the
event listeners (lines 317-396). -/
inductive Op where
  | create (name desc : String) (target : Option ℚ)
  | delete (id : String)
  | addSavings (id : String) (amount : Option ℚ)
  | editTarget (id : String) (promptResult : Option (Option ℚ))
  | toggleCurrency
  | toggleTheme
  | resetAll (confirmed : Bool)

/-- State transition of one operation. -/
def applyOp (s : State) : Op → State
  | Op.create n d t => (submitAddGoal s n d t).1
  | Op.delete id => { s with goals := deleteGoal s.goals id }
  | Op.addSavings id a => { s with goals := (addSavings s.goals id a).1 }
  | Op.editTarget id p => { s with goals := (editTarget s.goals id p).1 }
  | Op.toggleCurrency => { s with prefs := toggleCurrency s.prefs }
  | Op.toggleTheme => { s with prefs := toggleTheme s.prefs }
  | Op.resetAll c => resetAll s c

/-- Running a whole sequence of operations. -/
def applyOps (s : State) (ops : List Op) : State :=
  ops.foldl applyOp s

/-- JSON values, the possible results of `JSON.parse`. -/
inductive JSValue where
  | null
  | bool (b : Bool)
  | num (q : ℚ)
  | str (s : String)
  | arr (elems : List JSValue)
  | obj (fields : List (String × JSValue))

/-- Property access `o[k]` on a parsed JSON object: the first binding of
the key, if any. -/
def getField : List (String × JSValue) → String → Option JSValue
  | [], _ => none
  | (k, v) :: tl, key => if k = key then some v else getField tl key

/-- One storage slot as seen by `loadFromStorage`: `none` = the key is
absent (`getItem` returned `null`); `some none` = a blob is present but
malformed, so `JSON.parse` throws; `some (some v)` = the blob parses to
the JSON value `v`. -/
abbrev Blob : Type := Option (Option JSValue)

/-- Source `loadFromStorage()` (lines 91-110), as a function from the two slot
contents to the resulting `(goals, prefs)` pair.  The source keeps the
parsed goals completely unvalidated beyond `Array.isArray`, so the goals
result is a raw `List JSValue`.  Both slots are read inside one
`try`/`catch`; a parse failure in either resets both to the defaults.
An absent goals blob yields `[]`; a parsed non-array leaves the initial
`[]`.  A parsed prefs value passes `parsedPrefs && typeof parsedPrefs === "object"`
exactly when it is an object or an array (`typeof` of an array is
`"object"`, and `null` is falsy); in that case each field defaults
unless it is exactly the string `"USD"` / `"light"` (an array has no
such fields, so it yields the defaults). -/
def loadFromStorage (goalsSlot prefsSlot : Blob) : List JSValue × Prefs :=
  match goalsSlot with
  | some none => ([], defaultPrefs)
  | _ =>
    let parsed : JSValue :=
      match goalsSlot with
      | none => JSValue.arr []
      | some (some v) => v
      | some none => JSValue.arr []
    let goals1 : List JSValue :=
      match parsed with
      | JSValue.arr xs => xs
      | _ => []
    match prefsSlot with
    | some none => ([], defaultPrefs)
    | none => (goals1, defaultPrefs)
    | some (some pv) =>
      match pv with
      | JSValue.obj fields =>
        (goals1,
         { currency :=
             match getField fields "currency" with
             | some (JSValue.str c) => if c = "USD" then Currency.USD else Currency.INR
             | _ => Currency.INR
           theme :=
             match getField fields "theme" with
             | some (JSValue.str t) => if t = "light" then Theme.light else Theme.dark
             | _ => Theme.dark })
      | JSValue.arr _ =>
        (goals1, { currency := Currency.INR, theme := Theme.dark })
      | _ => (goals1, defaultPrefs)

/-- Whether a parsed JSON value is an array (`Array.isArray`). -/
def isArray : JSValue → Bool
  | JSValue.arr _ => true
  | _ => false

/-- Round-half-away-from-zero on a rational. -/
def roundHalfAwayFromZero (y : ℚ) : ℤ :=
  if 0 ≤ y then ⌊y + 1 / 2⌋ else -⌊-y + 1 / 2⌋

/-- Modelled from the spec's words (spec §4.1, numeric semantics):
rounding to 2 fractional digits "using round-half-away-from-zero … on
the scaled integer", i.e. half-away-from-zero applied to the value
scaled by 100. -/
def round2spec (x : ℚ) : ℚ := (roundHalfAwayFromZero (x * 100) : ℚ) / 100

/-- A rational is a whole number of cents (an integer multiple of `1/100`).
Every value `round2` produces has this shape, and every stored `target` /
`saved` is produced by `round2` (or is the literal `0`). -/
def Cents (q : ℚ) : Prop := ∃ k : ℤ, q = (k : ℚ) / 100

theorem cents_round2 (x : ℚ) : Cents (round2 x) :=
  ⟨jsRound ((x + epsJS) * 100), rfl⟩

theorem cents_zero : Cents 0 :=
  ⟨0, by norm_num⟩

theorem cents_add {a b : ℚ} (ha : Cents a) (hb : Cents b) : Cents (a + b) := by
  obtain ⟨k, rfl⟩ := ha
  obtain ⟨m, rfl⟩ := hb
  exact ⟨k + m, by push_cast; ring⟩

theorem cents_sub {a b : ℚ} (ha : Cents a) (hb : Cents b) : Cents (a - b) := by
  obtain ⟨k, rfl⟩ := ha
  obtain ⟨m, rfl⟩ := hb
  exact ⟨k - m, by push_cast; ring⟩

theorem round2_eq_self {x : ℚ} (h : Cents x) : round2 x = x := by
  obtain ⟨k, rfl⟩ := h
  unfold round2 jsRound
  have h1 : ((k : ℚ) / 100 + epsJS) * 100 + 1 / 2 = (k : ℚ) + (epsJS * 100 + 1 / 2) := by
    ring
  have h2 : ⌊(epsJS * 100 + 1 / 2 : ℚ)⌋ = 0 := by
    rw [Int.floor_eq_zero_iff, Set.mem_Ico]
    constructor
    · norm_num [epsJS]
    · norm_num [epsJS]
  rw [h1, Int.floor_int_add, h2, add_zero]

theorem round2_nonneg {x : ℚ} (h : 0 ≤ x) : 0 ≤ round2 x := by
  unfold round2 jsRound
  have hfl : (0 : ℤ) ≤ ⌊(x + epsJS) * 100 + 1 / 2⌋ := by
    apply Int.floor_nonneg.mpr
    have heps : (0 : ℚ) ≤ epsJS := by norm_num [epsJS]
    nlinarith
  have hq : (0 : ℚ) ≤ (⌊(x + epsJS) * 100 + 1 / 2⌋ : ℚ) := by
    exact_mod_cast hfl
  linarith

theorem computeRemaining_nonneg (target saved : ℚ) :
    0 ≤ computeRemaining target saved :=
  round2_nonneg (le_max_left 0 (target - saved))

/-- The per-goal invariant maintained by the store: `saved` and `target`
are whole numbers of cents and `0 ≤ saved ≤ target`. -/
def GoalInv (g : Goal) : Prop :=
  0 ≤ g.saved ∧ g.saved ≤ g.target ∧ Cents g.saved ∧ Cents g.target

/-- Every goal in the collection satisfies the per-goal invariant. -/
def GoalsInv (gs : List Goal) : Prop := ∀ g ∈ gs, GoalInv g

theorem computeRemaining_of_inv {g : Goal} (h : GoalInv g) :
    computeRemaining g.target g.saved = g.target - g.saved := by
  obtain ⟨h0, hle, hcs, hct⟩ := h
  unfold computeRemaining
  rw [max_eq_right (sub_nonneg.mpr hle)]
  exact round2_eq_self (cents_sub hct hcs)

theorem goalsInv_addSavings (gs : List Goal) (id : String) (a : Option ℚ) :
    GoalsInv gs → GoalsInv (addSavings gs id a).1 := by
  induction gs with
  | nil =>
    intro _ g hg
    simp [addSavings] at hg
  | cons g tl ih =>
    intro h
    have hg : GoalInv g := h g (List.mem_cons_self g tl)
    have htl : GoalsInv tl := fun x hx => h x (List.mem_cons_of_mem g hx)
    by_cases hid : g.id = id
    · rcases a with _ | a
      · simpa [addSavings, hid] using h
      · by_cases hpos : 0 < round2 a
        · by_cases hrem : computeRemaining g.target g.saved < round2 a
          · have hres : addSavings (g :: tl) id (some a) =
                (g :: tl, AddSavingsOutcome.exceeds (computeRemaining g.target g.saved)) := by
              simp [addSavings, hid, hpos, hrem]
            rw [hres]
            exact h
          · have hres : addSavings (g :: tl) id (some a) =
                ({ g with saved := round2 (g.saved + round2 a) } :: tl,
                 AddSavingsOutcome.added) := by
              simp [addSavings, hid, hpos, hrem]
            rw [hres]
            have hamt : round2 a ≤ g.target - g.saved := by
              rw [computeRemaining_of_inv hg] at hrem
              linarith [not_lt.mp hrem]
            obtain ⟨h0, hle, hcs, hct⟩ := hg
            have hsum : round2 (g.saved + round2 a) = g.saved + round2 a :=
              round2_eq_self (cents_add hcs (cents_round2 a))
            intro x hx
            rcases List.mem_cons.mp hx with hx | hx
            · subst hx
              refine ⟨?_, ?_, ?_, ?_⟩
              · simp only [hsum]
                linarith
              · simp only [hsum]
                linarith
              · simpa [hsum] using cents_add hcs (cents_round2 a)
              · exact hct
            · exact htl x hx
        · have hres : addSavings (g :: tl) id (some a) =
              (g :: tl, AddSavingsOutcome.invalidAmount) := by
            simp [addSavings, hid, hpos]
          rw [hres]
          exact h
    · have hres : addSavings (g :: tl) id a =
          (g :: (addSavings tl id a).1, (addSavings tl id a).2) := by
        simp [addSavings, hid]
      rw [hres]
      intro x hx
      rcases List.mem_cons.mp hx with hx | hx
      · subst hx
        exact hg
      · exact ih htl x hx

theorem goalsInv_editTarget (gs : List Goal) (id : String)
    (p : Option (Option ℚ)) : GoalsInv gs → GoalsInv (editTarget gs id p).1 := by
  induction gs with
  | nil =>
    intro _ g hg
    simp [editTarget] at hg
  | cons g tl ih =>
    intro h
    have hg : GoalInv g := h g (List.mem_cons_self g tl)
    have htl : GoalsInv tl := fun x hx => h x (List.mem_cons_of_mem g hx)
    by_cases hid : g.id = id
    · rcases p with _ | p
      · simpa [editTarget, hid] using h
      · rcases p with _ | t
        · simpa [editTarget, hid] using h
        · by_cases ht : 0 < t
          · have hres : editTarget (g :: tl) id (some (some t)) =
                ({ g with target := round2 t,
                          saved := if round2 t < g.saved then round2 t else g.saved } :: tl,
                 EditTargetOutcome.updated) := by
              simp [editTarget, hid, ht]
            rw [hres]
            intro x hx
            rcases List.mem_cons.mp hx with hx | hx
            · subst hx
              obtain ⟨h0, hle, hcs, hct⟩ := hg
              have htgt : 0 ≤ round2 t := round2_nonneg ht.le
              by_cases hcl : round2 t < g.saved
              · exact ⟨by simpa [hcl] using htgt, by simp [hcl], by simpa [hcl] using cents_round2 t,
                  cents_round2 t⟩
              · exact ⟨by simpa [hcl] using h0, by simpa [hcl] using not_lt.mp hcl,
                  by simpa [hcl] using hcs, cents_round2 t⟩
            · exact htl x hx
          · simpa [editTarget, hid, ht] using h
    · have hres : editTarget (g :: tl) id p =
          (g :: (editTarget tl id p).1, (editTarget tl id p).2) := by
        simp [editTarget, hid]
      rw [hres]
      intro x hx
      rcases List.mem_cons.mp hx with hx | hx
      · subst hx
        exact hg
      · exact ih htl x hx

theorem goalsInv_submitAddGoal (s : State) (name desc : String) (t : Option ℚ)
    (h : GoalsInv s.goals) : GoalsInv (submitAddGoal s name desc t).1.goals := by
  unfold submitAddGoal
  by_cases hname : jsTrim name = ""
  · simpa [hname] using h
  · rcases t with _ | t
    · simpa [hname] using h
    · by_cases ht : 0 < t
      · simp only [hname, ht, not_true, not_false_eq_true, ite_false, ite_true, if_false,
          if_true, addGoal]
        intro x hx
        rcases List.mem_append.mp hx with hx | hx
        · exact h x hx
        · rcases List.mem_singleton.mp hx with rfl
          exact ⟨le_refl 0, round2_nonneg ht.le, cents_zero, cents_round2 t⟩
      · simpa [hname, ht] using h

theorem goalsInv_applyOp (s : State) (op : Op) (h : GoalsInv s.goals) :
    GoalsInv (applyOp s op).goals := by
  cases op with
  | create n d t => exact goalsInv_submitAddGoal s n d t h
  | delete id =>
    intro g hg
    exact h g (List.mem_of_mem_filter hg)
  | addSavings id a => exact goalsInv_addSavings s.goals id a h
  | editTarget id p => exact goalsInv_editTarget s.goals id p h
  | toggleCurrency => exact h
  | toggleTheme => exact h
  | resetAll c =>
    cases c with
    | true =>
      intro g hg
      simp [applyOp, resetAll] at hg
    | false => simpa [applyOp, resetAll] using h

theorem goalsInv_applyOps (s : State) (ops : List Op) (h : GoalsInv s.goals) :
    GoalsInv (applyOps s ops).goals := by
  induction ops generalizing s with
  | nil => simpa [applyOps] using h
  | cons op ops ih =>
    have : applyOps s (op :: ops) = applyOps (applyOp s op) ops := rfl
    rw [this]
    exact ih (applyOp s op) (goalsInv_applyOp s op h)

theorem computeProgressPct_zero_saved (t : ℚ) : computeProgressPct t 0 = 0 := by
  unfold computeProgressPct clamp
  by_cases ht : t ≤ 0
  · simp [ht]
  · simp only [ht, if_false, ite_false, zero_div, zero_mul]
    norm_num

theorem computeProgressPct_self {t : ℚ} (h : 0 < t) : computeProgressPct t t = 100 := by
  unfold computeProgressPct clamp
  rw [if_neg (not_le.mpr h), div_self h.ne']
  norm_num

theorem foldl_add_map_sum (f : Goal → ℚ) (c : ℚ) (l : List Goal) :
    l.foldl (fun acc g => acc + f g) c = c + (l.map f).sum := by
  induction l generalizing c with
  | nil => simp
  | cons g tl ih => simp [ih, add_assoc]

theorem addSavings_append (pre gs : List Goal) (id : String) (a : Option ℚ)
    (hpre : ∀ x ∈ pre, x.id ≠ id) :
    addSavings (pre ++ gs) id a =
      (pre ++ (addSavings gs id a).1, (addSavings gs id a).2) := by
  induction pre with
  | nil => simp
  | cons p tl ih =>
    have hp : p.id ≠ id := hpre p (List.mem_cons_self p tl)
    have htl : ∀ x ∈ tl, x.id ≠ id := fun x hx => hpre x (List.mem_cons_of_mem p hx)
    simp [addSavings, hp, ih htl]

theorem editTarget_append (pre gs : List Goal) (id : String) (p : Option (Option ℚ))
    (hpre : ∀ x ∈ pre, x.id ≠ id) :
    editTarget (pre ++ gs) id p =
      (pre ++ (editTarget gs id p).1, (editTarget gs id p).2) := by
  induction pre with
  | nil => simp
  | cons q tl ih =>
    have hq : q.id ≠ id := hpre q (List.mem_cons_self q tl)
    have htl : ∀ x ∈ tl, x.id ≠ id := fun x hx => hpre x (List.mem_cons_of_mem q hx)
    simp [editTarget, hq, ih htl]

theorem addSavings_notFound (gs : List Goal) (id : String) (a : Option ℚ)
    (h : ∀ g ∈ gs, g.id ≠ id) :
    addSavings gs id a = (gs, AddSavingsOutcome.notFound) := by
  induction gs with
  | nil => simp [addSavings]
  | cons g tl ih =>
    have hg : g.id ≠ id := h g (List.mem_cons_self g tl)
    have htl : ∀ x ∈ tl, x.id ≠ id := fun x hx => h x (List.mem_cons_of_mem g hx)
    simp [addSavings, hg, ih htl]

theorem editTarget_notFound (gs : List Goal) (id : String) (p : Option (Option ℚ))
    (h : ∀ g ∈ gs, g.id ≠ id) :
    editTarget gs id p = (gs, EditTargetOutcome.notFound) := by
  induction gs with
  | nil => simp [editTarget]
  | cons g tl ih =>
    have hg : g.id ≠ id := h g (List.mem_cons_self g tl)
    have htl : ∀ x ∈ tl, x.id ≠ id := fun x hx => h x (List.mem_cons_of_mem g hx)
    simp [editTarget, hg, ih htl]

/-- C1: for every goal in the store, `0 ≤ saved ≤ target` holds after
every mutation — i.e. after any sequence of user operations (create,
add-savings, edit-target, delete, toggles, reset) applied from the
initial state, every goal in the collection satisfies
`0 ≤ saved ∧ saved ≤ target`; in particular `saved` never exceeds
`target` after any prefix of successful `addSavings` calls (instantiate
`ops` with that prefix). -/
theorem c1_saved_bounded_by_target (ops : List Op) (g : Goal)
    (hg : g ∈ (applyOps initState ops).goals) :
    0 ≤ g.saved ∧ g.saved ≤ g.target := by
  have h := goalsInv_applyOps initState ops (by intro x hx; simp [initState] at hx) g hg
  exact ⟨h.1, h.2.1⟩

/-- Witness for C1 at the concrete trace `[create "Bike" "" 100]`. -/
theorem c1_saved_bounded_by_target_witness :
    0 ≤ (⟨"g_0", "Bike", "", 100, 0, 0⟩ : Goal).saved ∧
    (⟨"g_0", "Bike", "", 100, 0, 0⟩ : Goal).saved ≤
      (⟨"g_0", "Bike", "", 100, 0, 0⟩ : Goal).target :=
  c1_saved_bounded_by_target [Op.create "Bike" "" (some 100)]
    ⟨"g_0", "Bike", "", 100, 0, 0⟩ (by
      have h100 : round2 100 = 100 := by norm_num [round2, jsRound, epsJS]
      simp [applyOps, applyOp, submitAddGoal, addGoal, uid, initState, h100]
      decide)

/-- C5 (amended): rounding to 2 digits is idempotent for every rational,
`round2 (round2 x) = round2 x`.  (The half-away-from-zero part of the
claim fails; see the counterexample: `round2` rounds ties toward `+∞`
on the epsilon-nudged scaled value, which differs from
round-half-away-from-zero at negative ties.) -/
theorem c5_round2_idempotent (x : ℚ) : round2 (round2 x) = round2 x :=
  round2_eq_self (cents_round2 x)

/-- C5 counterexample: at `x = -0.005` the source's `round2` yields `0`
(`Math.round` rounds the tie toward `+∞`), while round-half-away-from-zero
on the value scaled by 100, as the claim specifies, yields `-0.01`.  So
`round2` does not implement round-half-away-from-zero (nor an equivalent)
for every finite input. -/
theorem c5_counterexample :
    round2 (-(1 / 200)) = 0 ∧ round2spec (-(1 / 200)) = -(1 / 100) ∧
    round2 (-(1 / 200)) ≠ round2spec (-(1 / 200)) := by
  refine ⟨?_, ?_, ?_⟩
  · norm_num [round2, jsRound, epsJS]
  · norm_num [round2spec, roundHalfAwayFromZero]
  · norm_num [round2, jsRound, epsJS, round2spec, roundHalfAwayFromZero]

/-- C7: for every valid create input (non-empty trimmed name, positive
target), the submit handler creates the goal; the newly created goal has
`saved = 0`, `target = round2 t`, derived remaining equal to its target,
and derived progress percent `0`. -/
theorem c7_create_valid (s : State) (name desc : String) (t : ℚ)
    (hname : jsTrim name ≠ "") (ht : 0 < t) :
    (submitAddGoal s name desc (some t)).2 = SubmitOutcome.created ∧
    (submitAddGoal s name desc (some t)).1.goals =
      s.goals ++ [(addGoal s name desc t).2] ∧
    (addGoal s name desc t).2.saved = 0 ∧
    (addGoal s name desc t).2.target = round2 t ∧
    computeRemaining (addGoal s name desc t).2.target (addGoal s name desc t).2.saved =
      (addGoal s name desc t).2.target ∧
    computeProgressPct (addGoal s name desc t).2.target (addGoal s name desc t).2.saved = 0 := by
  have hrem : computeRemaining (round2 t) 0 = round2 t := by
    unfold computeRemaining
    rw [sub_zero, max_eq_right (round2_nonneg ht.le)]
    exact round2_eq_self (cents_round2 t)
  refine ⟨?_, ?_, ?_, ?_, ?_, ?_⟩ <;>
    simp [submitAddGoal, hname, ht, addGoal, hrem, computeProgressPct_zero_saved]

/-- Witness for C7 at `create "Bike" "" 100` from the initial state. -/
theorem c7_create_valid_witness :
    (submitAddGoal initState "Bike" "" (some 100)).2 = SubmitOutcome.created ∧
    (submitAddGoal initState "Bike" "" (some 100)).1.goals =
      initState.goals ++ [(addGoal initState "Bike" "" 100).2] ∧
    (addGoal initState "Bike" "" 100).2.saved = 0 ∧
    (addGoal initState "Bike" "" 100).2.target = round2 100 ∧
    computeRemaining (addGoal initState "Bike" "" 100).2.target
      (addGoal initState "Bike" "" 100).2.saved =
      (addGoal initState "Bike" "" 100).2.target ∧
    computeProgressPct (addGoal initState "Bike" "" 100).2.target
      (addGoal initState "Bike" "" 100).2.saved = 0 :=
  c7_create_valid initState "Bike" "" 100 (by decide) (by norm_num)

/-- C8: the summary computed by `renderSummary` (the source's aggregate
view) has `totalRequired` and `totalSaved` equal to the sums of `target`
and `saved` over all current goals, the count equal to the number of
goals, and `totalRemaining = max 0 (totalRequired - totalSaved)`,
clamped at the aggregate level. -/
theorem c8_renderSummary_sums (gs : List Goal) :
    (renderSummary gs).totalGoals = gs.length ∧
    (renderSummary gs).totalRequired = (gs.map Goal.target).sum ∧
    (renderSummary gs).totalSaved = (gs.map Goal.saved).sum ∧
    (renderSummary gs).totalRemaining =
      max 0 ((gs.map Goal.target).sum - (gs.map Goal.saved).sum) := by
  refine ⟨rfl, ?_, ?_, ?_⟩ <;>
    simp [renderSummary, foldl_add_map_sum]

/-- C9: from any state — in particular after any sequence of creates and
preference toggles — a confirmed `resetAll` leaves the goal collection
empty (so `list()` returns nothing) and the preferences at the
documented defaults (INR currency, dark theme). -/
theorem c9_resetAll_restores_defaults (s : State) :
    (resetAll s true).goals = [] ∧ (resetAll s true).prefs = defaultPrefs ∧
    listGoals (resetAll s true).goals = [] :=
  ⟨rfl, rfl, rfl⟩

/-- C10: when the rounded amount is not strictly positive (`NaN`,
zero-rounding or negative input), `addSavings` leaves every goal
unchanged, surfaces no alert, and performs no persistence write. -/
theorem c10_nonpositive_amount_silent (gs : List Goal) (id : String) (amount : Option ℚ)
    (h : ∀ amt, amount.map round2 = some amt → amt ≤ 0) :
    (addSavings gs id amount).1 = gs ∧
    addSavingsAlerts (addSavings gs id amount).2 = false ∧
    addSavingsPersists (addSavings gs id amount).2 = false := by
  induction gs with
  | nil => simp [addSavings, addSavingsAlerts, addSavingsPersists]
  | cons g tl ih =>
    by_cases hid : g.id = id
    · rcases amount with _ | a
      · simp [addSavings, hid, addSavingsAlerts, addSavingsPersists]
      · have ha : round2 a ≤ 0 := h (round2 a) (by simp)
        have hpos : ¬ 0 < round2 a := not_lt.mpr ha
        simp [addSavings, hid, hpos, addSavingsAlerts, addSavingsPersists]
    · obtain ⟨h1, h2, h3⟩ := ih
      simp [addSavings, hid, h1, h2, h3]

/-- Witness for C10: adding `-5` to an existing goal is a silent no-op. -/
theorem c10_nonpositive_amount_silent_witness :
    (addSavings [⟨"g_0", "Bike", "", 100, 0, 0⟩] "g_0" (some (-5))).1 =
      [⟨"g_0", "Bike", "", 100, 0, 0⟩] ∧
    addSavingsAlerts (addSavings [⟨"g_0", "Bike", "", 100, 0, 0⟩] "g_0" (some (-5))).2 =
      false ∧
    addSavingsPersists (addSavings [⟨"g_0", "Bike", "", 100, 0, 0⟩] "g_0" (some (-5))).2 =
      false :=
  c10_nonpositive_amount_silent [⟨"g_0", "Bike", "", 100, 0, 0⟩] "g_0" (some (-5))
    (by
      intro amt hamt
      simp at hamt
      subst hamt
      norm_num [round2, jsRound, epsJS])

/-- C2 (amended): the operation `addSavings` on an existing goal first rounds the
amount, `amt = round2 amount`.  When `amt ≤ 0` it is a silent no-op;
when `amt > remaining` (with `remaining = round2 (max 0 (target - saved))`)
it performs no mutation and rejects with the exceeds-remaining alert
carrying the computed remaining; otherwise it sets
`saved = round2 (saved + amt)` and succeeds.  (The claim as stated
compares the unrounded amount with `remaining`; the source compares the
rounded amount — see the counterexample.) -/
theorem c2_addSavings_rounded_guard (pre post : List Goal) (g : Goal) (id : String) (a : ℚ)
    (hpre : ∀ x ∈ pre, x.id ≠ id) (hg : g.id = id) :
    (round2 a ≤ 0 →
      addSavings (pre ++ g :: post) id (some a) =
        (pre ++ g :: post, AddSavingsOutcome.invalidAmount)) ∧
    (computeRemaining g.target g.saved < round2 a →
      addSavings (pre ++ g :: post) id (some a) =
        (pre ++ g :: post,
         AddSavingsOutcome.exceeds (computeRemaining g.target g.saved))) ∧
    (0 < round2 a → round2 a ≤ computeRemaining g.target g.saved →
      addSavings (pre ++ g :: post) id (some a) =
        (pre ++ { g with saved := round2 (g.saved + round2 a) } :: post,
         AddSavingsOutcome.added)) := by
  refine ⟨?_, ?_, ?_⟩
  · intro hle
    rw [addSavings_append pre (g :: post) id (some a) hpre]
    have hneg : ¬ 0 < round2 a := not_lt.mpr hle
    simp [addSavings, hg, hneg]
  · intro hlt
    rw [addSavings_append pre (g :: post) id (some a) hpre]
    have hpos : 0 < round2 a :=
      lt_of_le_of_lt (computeRemaining_nonneg g.target g.saved) hlt
    simp [addSavings, hg, hpos, hlt]
  · intro hpos hle
    rw [addSavings_append pre (g :: post) id (some a) hpre]
    have hnlt : ¬ computeRemaining g.target g.saved < round2 a := not_lt.mpr hle
    simp [addSavings, hg, hpos, hnlt]

/-- Witness for C2 (amended) at the success branch: adding `5` to a goal
with `target = 100`, `saved = 40` updates `saved` to `45`. -/
theorem c2_addSavings_rounded_guard_witness :
    addSavings [⟨"g_0", "Bike", "", 100, 40, 0⟩] "g_0" (some 5) =
      ([⟨"g_0", "Bike", "", 100, 45, 0⟩], AddSavingsOutcome.added) := by
  have h5 : round2 (5 : ℚ) = 5 := by norm_num [round2, jsRound, epsJS]
  have hrem : computeRemaining (100 : ℚ) 40 = 60 := by
    unfold computeRemaining
    rw [max_eq_right (by norm_num : (0:ℚ) ≤ 100 - 40)]
    norm_num [round2, jsRound, epsJS]
  have h45 : round2 (40 + 5 : ℚ) = 45 := by norm_num [round2, jsRound, epsJS]
  have h := (c2_addSavings_rounded_guard [] [] ⟨"g_0", "Bike", "", 100, 40, 0⟩ "g_0" 5
      (by simp) rfl).2.2 (by rw [h5]; norm_num) (by
        show round2 5 ≤ computeRemaining (100 : ℚ) 40
        rw [h5, hrem]
        norm_num)
  simpa [h5, h45] using h

/-- C2 counterexample: a goal with `target = 1`, `saved = 0` has
`remaining = 1`; the claim says `addSavings(id, 1.004)` (amount strictly
greater than remaining) must perform no mutation and reject, but the
source rounds the amount first (`round2 1.004 = 1 ≤ 1`), mutates
`saved` to `1` and succeeds. -/
theorem c2_counterexample :
    (251 / 250 : ℚ) > computeRemaining 1 0 ∧
    addSavings [⟨"g_0", "Pen", "", 1, 0, 0⟩] "g_0" (some (251 / 250)) =
      ([⟨"g_0", "Pen", "", 1, 1, 0⟩], AddSavingsOutcome.added) := by
  have h1 : round2 (251 / 250 : ℚ) = 1 := by norm_num [round2, jsRound, epsJS]
  have hrem : computeRemaining (1 : ℚ) 0 = 1 := by
    unfold computeRemaining
    rw [sub_zero, max_eq_right (by norm_num : (0:ℚ) ≤ 1)]
    norm_num [round2, jsRound, epsJS]
  have h2 : round2 (1 : ℚ) = 1 := by norm_num [round2, jsRound, epsJS]
  constructor
  · rw [hrem]
    norm_num
  · simp [addSavings, h1, hrem, h2, show (0:ℚ) < 1 by norm_num]

/-- C3 (amended): for an id not present in the collection, `addSavings`
and `editTarget` are silent no-ops — no mutation, no alert, no
persistence write — rather than surfaced `NotFound` failures, and
`delete` with an absent id is a non-error no-op leaving the collection
unchanged. -/
theorem c3_unknown_id_silent (gs : List Goal) (id : String) (amount : Option ℚ)
    (input : Option (Option ℚ)) (h : ∀ g ∈ gs, g.id ≠ id) :
    addSavings gs id amount = (gs, AddSavingsOutcome.notFound) ∧
    addSavingsAlerts (addSavings gs id amount).2 = false ∧
    addSavingsPersists (addSavings gs id amount).2 = false ∧
    editTarget gs id input = (gs, EditTargetOutcome.notFound) ∧
    editTargetAlerts (editTarget gs id input).2 = false ∧
    editTargetPersists (editTarget gs id input).2 = false ∧
    deleteGoal gs id = gs := by
  have h1 := addSavings_notFound gs id amount h
  have h2 := editTarget_notFound gs id input h
  refine ⟨h1, by rw [h1]; rfl, by rw [h1]; rfl, h2, by rw [h2]; rfl, by rw [h2]; rfl, ?_⟩
  unfold deleteGoal
  apply List.filter_eq_self.mpr
  intro a ha
  simpa using h a ha

/-- Witness for C3 (amended) at a concrete store and absent id. -/
theorem c3_unknown_id_silent_witness :
    addSavings [⟨"g_0", "Bike", "", 100, 0, 0⟩] "missing" (some 5) =
      ([⟨"g_0", "Bike", "", 100, 0, 0⟩], AddSavingsOutcome.notFound) ∧
    addSavingsAlerts
      (addSavings [⟨"g_0", "Bike", "", 100, 0, 0⟩] "missing" (some 5)).2 = false ∧
    addSavingsPersists
      (addSavings [⟨"g_0", "Bike", "", 100, 0, 0⟩] "missing" (some 5)).2 = false ∧
    editTarget [⟨"g_0", "Bike", "", 100, 0, 0⟩] "missing" (some (some 50)) =
      ([⟨"g_0", "Bike", "", 100, 0, 0⟩], EditTargetOutcome.notFound) ∧
    editTargetAlerts
      (editTarget [⟨"g_0", "Bike", "", 100, 0, 0⟩] "missing" (some (some 50))).2 = false ∧
    editTargetPersists
      (editTarget [⟨"g_0", "Bike", "", 100, 0, 0⟩] "missing" (some (some 50))).2 = false ∧
    deleteGoal [⟨"g_0", "Bike", "", 100, 0, 0⟩] "missing" =
      [⟨"g_0", "Bike", "", 100, 0, 0⟩] :=
  c3_unknown_id_silent [⟨"g_0", "Bike", "", 100, 0, 0⟩] "missing" (some 5)
    (some (some 50)) (by decide)

/-- C3 counterexample: on an unknown id the source's `addSavings` and
`editTarget` take the bare `return` branch — the state is unchanged and
no alert (the source's only error-surfacing mechanism; every path
returns `undefined`) is raised.  So they silently do nothing instead of
failing with a surfaced `NotFound`, refuting the claim's "fail with
NotFound (rather than silently doing nothing)". -/
theorem c3_counterexample :
    addSavings [⟨"g_0", "Bike", "", 100, 0, 0⟩] "nope" (some 5) =
      ([⟨"g_0", "Bike", "", 100, 0, 0⟩], AddSavingsOutcome.notFound) ∧
    addSavingsAlerts AddSavingsOutcome.notFound = false ∧
    addSavingsPersists AddSavingsOutcome.notFound = false ∧
    editTarget [⟨"g_0", "Bike", "", 100, 0, 0⟩] "nope" (some (some 50)) =
      ([⟨"g_0", "Bike", "", 100, 0, 0⟩], EditTargetOutcome.notFound) ∧
    editTargetAlerts EditTargetOutcome.notFound = false := by
  refine ⟨by decide, rfl, rfl, by decide, rfl⟩

/-- C4 (amended): for every existing goal, `editTarget` with finite
`newTarget > 0` sets `target = round2 newTarget` and clamps `saved`
down to the new target exactly when `round2 newTarget < saved`, so that
afterwards `saved = target`; the derived progress percent is then `100`
provided `round2 newTarget > 0` (a tiny positive `newTarget` rounds to
a target of `0`, in which case `progressPct` is `0`, not `100` — see
the counterexample). -/
theorem c4_editTarget_clamps (pre post : List Goal) (g : Goal) (id : String) (t : ℚ)
    (hpre : ∀ x ∈ pre, x.id ≠ id) (hg : g.id = id) (ht : 0 < t) :
    editTarget (pre ++ g :: post) id (some (some t)) =
      (pre ++ { g with target := round2 t,
                       saved := if round2 t < g.saved then round2 t else g.saved } :: post,
       EditTargetOutcome.updated) ∧
    (round2 t < g.saved →
      ({ g with target := round2 t,
                saved := if round2 t < g.saved then round2 t else g.saved } : Goal).saved =
      ({ g with target := round2 t,
                saved := if round2 t < g.saved then round2 t else g.saved } : Goal).target) ∧
    (round2 t < g.saved → 0 < round2 t →
      computeProgressPct
        ({ g with target := round2 t,
                  saved := if round2 t < g.saved then round2 t else g.saved } : Goal).target
        ({ g with target := round2 t,
                  saved := if round2 t < g.saved then round2 t else g.saved } : Goal).saved =
        100) := by
  refine ⟨?_, ?_, ?_⟩
  · rw [editTarget_append pre (g :: post) id (some (some t)) hpre]
    simp [editTarget, hg, ht]
  · intro hcl
    simp [hcl]
  · intro hcl hpos
    simp only [hcl, ite_true, if_true]
    exact computeProgressPct_self hpos

/-- Witness for C4 (amended), the spec's own scenario: lowering the
target of a goal with `target = 10000`, `saved = 4000` to `3000` clamps
`saved` to `3000` and yields progress `100`. -/
theorem c4_editTarget_clamps_witness :
    editTarget [⟨"g_0", "Bike", "", 10000, 4000, 0⟩] "g_0" (some (some 3000)) =
      ([⟨"g_0", "Bike", "", 3000, 3000, 0⟩], EditTargetOutcome.updated) ∧
    computeProgressPct 3000 3000 = 100 := by
  have h3 : round2 (3000 : ℚ) = 3000 := by norm_num [round2, jsRound, epsJS]
  have h := c4_editTarget_clamps [] [] ⟨"g_0", "Bike", "", 10000, 4000, 0⟩ "g_0" 3000
    (by simp) rfl (by norm_num)
  constructor
  · have h1 := h.1
    rw [h3] at h1
    simpa [show (3000:ℚ) < 4000 by norm_num] using h1
  · have h2 := h.2.2 (by rw [h3]; norm_num) (by rw [h3]; norm_num)
    rw [h3] at h2
    simpa [show (3000:ℚ) < 4000 by norm_num] using h2

/-- C4 counterexample: calling `editTarget(id, 0.004)` on a goal with
`saved = 5` is a valid input (`0.004` is finite and `> 0`, and below the
current saved amount), and the source clamps `saved` to the new target;
but the new target `round2 0.004` is `0`, so afterwards
`progressPct = 0`, not `100` as the claim states. -/
theorem c4_counterexample :
    (0 : ℚ) < 1 / 250 ∧ (1 / 250 : ℚ) < 5 ∧
    editTarget [⟨"g_0", "Bike", "", 100, 5, 0⟩] "g_0" (some (some (1 / 250))) =
      ([⟨"g_0", "Bike", "", 0, 0, 0⟩], EditTargetOutcome.updated) ∧
    computeProgressPct 0 0 = 0 ∧ (0 : ℚ) ≠ 100 := by
  have h0 : round2 ((250 : ℚ)⁻¹) = 0 := by norm_num [round2, jsRound, epsJS]
  refine ⟨by norm_num, by norm_num, ?_, ?_, by norm_num⟩
  · simp [editTarget, h0, show (0:ℚ) < 250⁻¹ by norm_num, show (0:ℚ) < 5 by norm_num]
  · simp [computeProgressPct]

/-- C6 (amended): on load, an absent slot or a malformed blob
(unparseable JSON) never fails startup and yields the documented
defaults — and a malformed prefs blob also resets an already-parsed
goals array to empty, since both slots share one try/catch.  However the
shape of a parsed goals blob is not validated beyond `Array.isArray`:
any JSON array is accepted verbatim as the goals collection even when
its elements are not Goal records (see the counterexample), while a
parsed non-array goals value leaves the empty default; an absent prefs
slot and a parsed prefs value that is neither an object nor an array
both leave the default preferences. -/
theorem c6_load_defaults_and_no_validation :
    (loadFromStorage none none = ([], defaultPrefs)) ∧
    (∀ ps : Blob, loadFromStorage (some none) ps = ([], defaultPrefs)) ∧
    (∀ gs : Blob, loadFromStorage gs (some none) = ([], defaultPrefs)) ∧
    (∀ (xs : List JSValue) (ps : Blob), ps ≠ some none →
      (loadFromStorage (some (some (JSValue.arr xs))) ps).1 = xs) ∧
    (∀ (v : JSValue) (ps : Blob), isArray v = false → ps ≠ some none →
      (loadFromStorage (some (some v)) ps).1 = []) ∧
    (∀ gs : Blob, gs ≠ some none → (loadFromStorage gs none).2 = defaultPrefs) ∧
    (∀ pv : JSValue, isArray pv = false → (∀ fields, pv ≠ JSValue.obj fields) →
      (loadFromStorage none (some (some pv))).2 = defaultPrefs) := by
  refine ⟨rfl, ?_, ?_, ?_, ?_, ?_, ?_⟩
  · intro ps
    rfl
  · intro gs
    rcases gs with _ | g
    · rfl
    · rcases g with _ | v
      · rfl
      · rfl
  · intro xs ps hps
    rcases ps with _ | p
    · rfl
    · rcases p with _ | pv
      · exact absurd rfl hps
      · rcases pv with _ | b | q | str | elems | fields <;> rfl
  · intro v ps hv hps
    rcases v with _ | b | q | str | elems | fields
    case arr => simp [isArray] at hv
    all_goals
      rcases ps with _ | p
      case none => rfl
      all_goals
        rcases p with _ | pv
        case none => exact absurd rfl hps
        all_goals rcases pv with _ | b2 | q2 | str2 | elems2 | fields2 <;> rfl
  · intro gs hgs
    rcases gs with _ | g
    · rfl
    · rcases g with _ | v
      · exact absurd rfl hgs
      · rcases v with _ | b | q | str | elems | fields <;> rfl
  · intro pv hv hobj
    rcases pv with _ | b | q | str | elems | fields
    case arr => simp [isArray] at hv
    case obj => exact absurd rfl (hobj fields)
    all_goals rfl

/-- Witness for C6 (amended): a goals blob parsing to the number `5`
(not an array) yields the empty default, and a malformed goals blob
yields both defaults. -/
theorem c6_load_defaults_witness :
    (loadFromStorage (some (some (JSValue.num 5))) none).1 = [] ∧
    loadFromStorage (some none) none = ([], defaultPrefs) :=
  ⟨c6_load_defaults_and_no_validation.2.2.2.2.1 (JSValue.num 5) none rfl (by simp),
   c6_load_defaults_and_no_validation.2.1 none⟩

/-- C6 counterexample: the stored goals blob `[1, 2, 3]` is valid JSON
but is not an array of Goal records; the claim says the core substitutes
the empty-list default, yet the source accepts the array verbatim
(`Array.isArray` is its only shape check), so the loaded goal collection
is `[1, 2, 3]`, not `[]`. -/
theorem c6_counterexample :
    (loadFromStorage
        (some (some (JSValue.arr [JSValue.num 1, JSValue.num 2, JSValue.num 3])))
        none).1 =
      [JSValue.num 1, JSValue.num 2, JSValue.num 3] ∧
    (loadFromStorage
        (some (some (JSValue.arr [JSValue.num 1, JSValue.num 2, JSValue.num 3])))
        none).1 ≠ [] := by
  refine ⟨rfl, ?_⟩
  intro h
  exact List.cons_ne_nil _ _ h

end WishlistTracker
